import Mathlib

set_option maxRecDepth 1000

unseal Rat.mul Rat.add Rat.sub Rat.inv

/-!
Verification of the shock-tester measurement evaluation engine.

This file gives a shallow embedding, over `ℚ`, of the phase-shift evaluation
code of the repository:

* `OptimizedPhaseCalculator` (`processing/phase_calculator.py`, embedded in
  `src/processing/data_processor.py`): `_find_peaks_fast`,
  `_analyze_cycles_vectorized`, `_calculate_phase_fast`,
  `_calculate_optimized_python`, `calculate`;
* the C extension `phase_shift_c.c` (embedded in
  `src/processing/ring_buffer.py`): `find_peaks`, `calculate_cycle_phase`,
  `calculate_phase_shift`;
* `calculate_rfa_max` and the imbalance helper
  `_calculate_difference_percent` from the EGEA documentation sources.

Machine floats are modelled as exact rationals; numpy/C float arithmetic on
the inputs used in the concrete theorems below involves no overflow, NaN or
rounding subtleties that would distinguish `ℚ` from IEEE doubles (all
branches compare finite values).  Python `%` on floats is modelled by
`pymod`, C `fmod` by `fmodQ`.
-/

/-- Minimum of a nonempty list, `np.min` style (`0` as junk value on `[]`,
where numpy would raise). -/
def listMin : List ℚ → ℚ
  | [] => 0
  | h :: t => t.foldl min h

/-- Maximum of a nonempty list, `np.max` style (`0` as junk value on `[]`). -/
def listMax : List ℚ → ℚ
  | [] => 0
  | h :: t => t.foldl max h

/-- Index of the first occurrence of the maximum, `np.argmax` style
(`0` on `[]`, where numpy would raise). -/
def argmaxIdx (l : List ℚ) : ℕ :=
  (l.foldl (fun (st : ℕ × ℕ × ℚ) x =>
      if st.2.2 < x then (st.2.1, st.2.1 + 1, x) else (st.1, st.2.1 + 1, st.2.2))
    (0, 0, l.headD 0)).1

/-- Python float `%`: result has the sign of the (here positive) modulus. -/
def pymod (x m : ℚ) : ℚ := x - m * ⌊x / m⌋

/-- Truncation toward zero, as C casts / `fmod` use. -/
def truncQ (q : ℚ) : ℤ := if q < 0 then ⌈q⌉ else ⌊q⌋

/-- C `fmod`: remainder with the sign of the dividend. -/
def fmodQ (x m : ℚ) : ℚ := x - m * truncQ (x / m)

/-- First pair attaining the minimal first component (`(0, 0)` junk on `[]`).
Both the Python path (`np.argmin`, which returns the first minimising index)
and the C path (a linear scan updating on strict `<`) select the first
occurrence of the minimum, so both reduce to this one helper. -/
def selectMin : List (ℚ × ℚ) → ℚ × ℚ
  | [] => (0, 0)
  | h :: t => t.foldl (fun b x => if x.1 < b.1 then x else b) h

/-! ### Peak finding

Python `_find_peaks_fast(data, min_distance=50)` accepts an interior local
maximum `i` when it is at distance ≥ 50 from the previously accepted peak,
`5 ≤ i < n - 5`, and `data[i]` strictly dominates the window
`[i-5, i+5]`.  The C `find_peaks` differs: no `5 ≤ i < n - 5` guard, the
dominance window is `[max(0,i-5), min(i+5,n) - 1]`, and the peak count is
capped at `max_peaks = n / 10`. -/

/-- Window test of the Python peak finder: `data[j] >= data[i]` for some
`j ≠ i` in `range(max(0, i-5), min(n, i+6))` rejects `i`.  It is only
evaluated under the guard `5 ≤ i < n - 5`, where the range is exactly
`[i-5, i+5]`. -/
def pyWindowOk (d : List ℚ) (i : ℕ) : Bool :=
  (List.range' (i - 5) 11).all fun j => j == i || decide (d.getD j 0 < d.getD i 0)

/-- Minimum-distance test `not peaks or i - peaks[-1] >= min_distance`
(with `min_distance = 50`), shared by both peak finders. -/
def distOk (acc : List ℕ) (i : ℕ) : Bool :=
  match acc.getLast? with
  | none => true
  | some p => decide (50 ≤ i - p)

/-- One step of the Python peak accumulation loop. -/
def pyPeakStep (d : List ℚ) (n : ℕ) (acc : List ℕ) (i : ℕ) : List ℕ :=
  if (d.getD (i - 1) 0 < d.getD i 0 ∧ d.getD (i + 1) 0 < d.getD i 0)
      ∧ distOk acc i = true
      ∧ (5 ≤ i ∧ i < n - 5)
      ∧ pyWindowOk d i = true then
    acc ++ [i]
  else acc

/-- `OptimizedPhaseCalculator._find_peaks_fast` (Python/numba path). -/
def find_peaks_fast (d : List ℚ) : List ℕ :=
  (List.range' 1 (d.length - 2)).foldl (pyPeakStep d d.length) []

/-- Window test of the C peak finder: `j` ranges over
`[max(0,i-5), min(i+5,n))`, one sample fewer on the right than Python. -/
def cWindowOk (d : List ℚ) (n i : ℕ) : Bool :=
  (List.range' (i - 5) (min (i + 5) n - (i - 5))).all fun j =>
    j == i || decide (d.getD j 0 < d.getD i 0)

/-- One step of the C peak accumulation loop, with the `n / 10` cap. -/
def cPeakStep (d : List ℚ) (n : ℕ) (acc : List ℕ) (i : ℕ) : List ℕ :=
  if acc.length < n / 10
      ∧ (d.getD (i - 1) 0 < d.getD i 0 ∧ d.getD (i + 1) 0 < d.getD i 0)
      ∧ distOk acc i = true
      ∧ cWindowOk d n i = true then
    acc ++ [i]
  else acc

/-- `find_peaks` of the C extension `phase_shift_c.c`, as called with
`max_peaks = n / 10` and `min_distance = 50`. -/
def find_peaks_c (d : List ℚ) : List ℕ :=
  (List.range' 1 (d.length - 2)).foldl (cPeakStep d d.length) []

/-! ### Static-weight crossings

Both the Python `_calculate_phase_fast` and the C `calculate_cycle_phase`
scan consecutive force samples, emit a linearly interpolated crossing time on
an upward (`f[i-1] <= sw <= f[i]`) or downward (`f[i-1] >= sw >= f[i]`) pass
through the static weight, and use the same interpolation formula, so they
share one body. The Python version works on the extracted cycle slice, the C
version on the full arrays between `start` and `end` with at most 100
crossings recorded. -/

/-- Crossing test and interpolation at sample pair `(i-1, i)`. -/
def crossBody (f t : List ℚ) (sw : ℚ) (i : ℕ) : Option ℚ :=
  let f0 := f.getD (i - 1) 0
  let f1 := f.getD i 0
  if f0 ≤ sw ∧ sw ≤ f1 then
    some (t.getD (i - 1) 0 + (sw - f0) / (f1 - f0) * (t.getD i 0 - t.getD (i - 1) 0))
  else if f0 ≥ sw ∧ sw ≥ f1 then
    some (t.getD (i - 1) 0 + (sw - f0) / (f1 - f0) * (t.getD i 0 - t.getD (i - 1) 0))
  else none

/-- The crossing scan of `_calculate_phase_fast` (`for i in range(1, n)`). -/
def crossings_fast (f t : List ℚ) (sw : ℚ) : List ℚ :=
  (List.range' 1 (f.length - 1)).filterMap (crossBody f t sw)

/-- The crossing scan of the C `calculate_cycle_phase`
(`for i = start+1; i < end && crossing_count < 100`): identical pair test on
the full arrays, truncated at 100 recorded crossings. -/
def crossings_c (f t : List ℚ) (s e : ℕ) (sw : ℚ) : List ℚ :=
  ((List.range' (s + 1) (e - (s + 1))).filterMap (crossBody f t sw)).take 100

/-- The reference time of `_calculate_phase_fast`: the plain mean of the
first two recorded crossings, whatever their directions. -/
def fref_fast (f t : List ℚ) (sw : ℚ) : ℚ :=
  let cs := crossings_fast f t sw
  (cs.getD 0 0 + cs.getD 1 0) / 2

/-- `OptimizedPhaseCalculator._calculate_phase_fast` on one cycle slice.
Returns the sentinel `-1.0` when fewer than two crossings are found.  The
phase is measured from `time_data[0]`, the cycle start. -/
def calculate_phase_fast (f t : List ℚ) (sw : ℚ) : ℚ :=
  let cs := crossings_fast f t sw
  if cs.length < 2 then -1
  else
    let fref := fref_fast f t sw
    let dur := t.getLast?.getD 0 - t.getD 0 0
    let ps := (fref - t.getD 0 0) / dur * 360
    let ps2 := pymod ps 360
    if ps2 > 180 then 360 - ps2 else ps2

/-- `calculate_cycle_phase` of the C extension: as the Python one but indexed
into the full arrays, with an `end - start < 3` guard and C `fmod`
normalisation (`fmod`, then `+ 360` if negative). -/
def calculate_cycle_phase (f t : List ℚ) (s e : ℕ) (sw : ℚ) : ℚ :=
  if e - s < 3 then -1
  else
    let cs := crossings_c f t s e sw
    if cs.length < 2 then -1
    else
      let fref := (cs.getD 0 0 + cs.getD 1 0) / 2
      let dur := t.getD (e - 1) 0 - t.getD s 0
      let ps := (fref - t.getD s 0) / dur * 360
      let r := fmodQ ps 360
      let r2 := if r < 0 then r + 360 else r
      if r2 > 180 then 360 - r2 else r2

/-! ### The two evaluation pipelines -/

/-- Error taxonomy.  `valueError` is raised by the C extension on malformed
array arguments; the remaining constructors are the engine error types named
by the design documentation (`InsufficientDataError`, `NoValidCyclesError`,
`ArrayLengthMismatchError`) — no code under the provided sources ever raises
them, which several theorems below make precise. -/
inductive EngineError
  | insufficientDataError
  | noValidCyclesError
  | arrayLengthMismatchError
  | valueError
deriving DecidableEq, Repr

/-- The result dictionary shared by both paths.  An invalid result carries
only `valid` and `error`; the remaining keys are absent, modelled as
`none` / `[]`. -/
structure PhaseOut where
  valid : Bool
  error : Option String
  min_phase_shift : Option ℚ
  min_phase_freq : Option ℚ
  phase_shifts : List ℚ
  frequencies : List ℚ
deriving DecidableEq, Repr

/-- `{'valid': False, 'error': msg}`. -/
def PhaseOut.mkInvalid (msg : String) : PhaseOut :=
  ⟨false, some msg, none, none, [], []⟩

/-- Mutable state of an `OptimizedPhaseCalculator` object, as set up by
`__init__`: the frequency band, the (never consulted) `rfst` percentages,
the `_cache` dictionary (an uninterpreted payload here) and whether the
C-extension import succeeded. -/
structure CalcState where
  min_freq : ℚ
  max_freq : ℚ
  rfst_fmin : ℚ
  rfst_fmax : ℚ
  cache : List ℚ
  has_c_extension : Bool
deriving DecidableEq, Repr

/-- The state `__init__` builds: band 6–18 Hz, `rfst` percentages 25/25,
empty cache. -/
def initCalcState (hasC : Bool) : CalcState := ⟨6, 18, 25, 25, [], hasC⟩

/-- `OptimizedPhaseCalculator._analyze_cycles_vectorized`: walk consecutive
peak pairs, compute the cycle frequency from the extracted time slice, keep
cycles inside the inclusive band, and record
`(_calculate_phase_fast(...), frequency)`.  The source guard
`if phase is not None` can never fail — the jitted helper returns a float
(`-1.0` as its invalid marker), never `None` — so every in-band cycle is
recorded. -/
def cycleEval (st : CalcState) (fd td : List ℚ) (sw : ℚ)
    (se : ℕ × ℕ) : Option (ℚ × ℚ) :=
  let ct := (td.drop se.1).take (se.2 - se.1)
  let cf := (fd.drop se.1).take (se.2 - se.1)
  let freq := 1 / (ct.getLast?.getD 0 - ct.getD 0 0)
  if st.min_freq ≤ freq ∧ freq ≤ st.max_freq then
    some (calculate_phase_fast cf ct sw, freq)
  else none

def analyze_cycles_vectorized (st : CalcState) (fd td : List ℚ) (sw : ℚ)
    (peaks : List ℕ) : List (ℚ × ℚ) :=
  (peaks.zip peaks.tail).filterMap (cycleEval st fd td sw)

/-- The cycle loop of the C `calculate_phase_shift`: same peak pairs and the
same inclusive band test (`frequency < min_freq || frequency > max_freq`
skips), but a cycle is recorded only when `calculate_cycle_phase`
returned a non-negative phase. -/
def cycleEvalC (st : CalcState) (fd td : List ℚ) (sw : ℚ)
    (se : ℕ × ℕ) : Option (ℚ × ℚ) :=
  let freq := 1 / (td.getD (se.2 - 1) 0 - td.getD se.1 0)
  if freq < st.min_freq ∨ freq > st.max_freq then none
  else
    let phase := calculate_cycle_phase fd td se.1 se.2 sw
    if phase ≥ 0 then some (phase, freq) else none

def analyze_cycles_cext (st : CalcState) (fd td : List ℚ) (sw : ℚ)
    (peaks : List ℕ) : List (ℚ × ℚ) :=
  (peaks.zip peaks.tail).filterMap (cycleEvalC st fd td sw)

/-- The Python truth test `not arr` on a 1-D numpy float array, as the
interpreter evaluates it: an empty array is falsy (numpy's deprecated
fall-back), a one-element array carries its element's truthiness (`-1.0` is
truthy, `0.0` falsy), and an array of two or more elements raises
`ValueError: The truth value of an array with more than one element is
ambiguous` — `none` here. -/
def npNot : List ℚ → Option Bool
  | [] => some true
  | [x] => some (decide (x = 0))
  | _ => none

/-- `OptimizedPhaseCalculator._calculate_optimized_python`.  The guard
`if not results['phase_shifts']:` applies `not` to the numpy array built in
`_analyze_cycles_vectorized`, so with two or more recorded cycles the method
raises `ValueError` (`npNot` returns `none`); only degenerate data yields
the `{'valid': False, ...}` dictionaries. -/
def calculate_optimized_python (st : CalcState) (pd fd td : List ℚ)
    (sw : ℚ) : Except EngineError PhaseOut :=
  let peaks := find_peaks_fast pd
  if peaks.length < 2 then .ok (PhaseOut.mkInvalid "Nicht genug Peaks gefunden")
  else
    let rs := analyze_cycles_vectorized st fd td sw peaks
    match npNot (rs.map Prod.fst) with
    | none => .error .valueError
    | some true => .ok (PhaseOut.mkInvalid "Keine gültigen Zyklen")
    | some false =>
      let m := selectMin rs
      .ok ⟨true, none, some m.1, some m.2, rs.map Prod.fst, rs.map Prod.snd⟩

/-- `calculate_phase_shift` of the C extension.  It raises `ValueError` on
arrays of mismatched length (the 1-D check cannot fail in this embedding);
otherwise it returns a result dictionary. -/
def calculate_phase_shift (st : CalcState) (pd fd td : List ℚ)
    (sw : ℚ) : Except EngineError PhaseOut :=
  if fd.length ≠ pd.length ∨ td.length ≠ pd.length then .error .valueError
  else
    let peaks := find_peaks_c pd
    if peaks.length < 2 then .ok (PhaseOut.mkInvalid "Not enough peaks found")
    else
      let rs := analyze_cycles_cext st fd td sw peaks
      if rs.isEmpty then .ok (PhaseOut.mkInvalid "No valid cycles found")
      else
        let m := selectMin rs
        .ok ⟨true, none, some m.1, some m.2, rs.map Prod.fst, rs.map Prod.snd⟩

/-- `OptimizedPhaseCalculator.calculate`: dispatch to the C extension when it
was imported, else to the optimized Python implementation.  The method body
assigns no attribute, so the state is returned unchanged. -/
def calculate (st : CalcState) (pd fd td : List ℚ) (sw : ℚ) :
    (Except EngineError PhaseOut) × CalcState :=
  if st.has_c_extension then (calculate_phase_shift st pd fd td sw, st)
  else (calculate_optimized_python st pd fd td sw, st)

/-- The components of a result that claim C10 compares across the two paths:
validity flag, `min_phase_shift`, `min_phase_freq` and the per-cycle
phase/frequency sequences — deliberately not the error message strings. -/
def claimObs : Except EngineError PhaseOut →
    Option (Bool × Option ℚ × Option ℚ × List ℚ × List ℚ)
  | .ok r => some (r.valid, r.min_phase_shift, r.min_phase_freq,
      r.phase_shifts, r.frequencies)
  | .error _ => none

/-! ### Force analysis and imbalance -/

/-- Result tuple of `calculate_rfa_max`. -/
structure RfaOut where
  rfa_max : ℚ
  fa_max : ℚ
  f_under_flag : Bool
  f_over_flag : Bool
deriving DecidableEq, Repr

/-- `calculate_rfa_max` from the EGEA module documentation
(`src/common/suspension_core/egea/README.md`).  The overflow/underflow
detector (`signal_processing.detect_signal_overflow_underflow`) is not among
the provided sources; its two boolean outputs are taken as inputs here,
which is exactly the granularity at which claim C5 is stated. -/
def calculate_rfa_max (f_under_flag f_over_flag : Bool)
    (tire_force : List ℚ) (static_weight : ℚ) : RfaOut :=
  let fmin := listMin tire_force
  let fmax := listMax tire_force
  let fa_max :=
    if f_under_flag = false ∧ f_over_flag = false then static_weight - fmin
    else if f_under_flag = true ∧ f_over_flag = false then fmax - static_weight
    else max (fmax - static_weight) (static_weight - fmin)
  let rfa_max := if static_weight > 0 then fa_max / static_weight * 100 else 0
  ⟨rfa_max, fa_max, f_under_flag, f_over_flag⟩

/-- `SuspensionTestController._calculate_difference_percent`
(`src/unnamed/part_003`): relative left/right imbalance in percent. -/
def calculate_difference_percent (val1 val2 : ℚ) : ℚ :=
  if val1 = 0 ∧ val2 = 0 then 0
  else
    let max_val := max |val1| |val2|
    if max_val = 0 then 0
    else |val1 - val2| / max_val * 100

/-! ### Spec-side reference definitions

The repository also contains an EGEA-conformant processor
(`EGEAPhaseShiftProcessor` with `find_platform_tops`, `calculate_fref`,
`calculate_advanced_phase_shift`); only its callers and documentation are
among the provided sources, so the two definitions below model it from the
design documentation for comparison against the legacy code above. -/

/-- Modelled from the spec: the §4.3 phase angle
`φ(i) = ((Fref(i) − TOPp(i)) mod (1/frequency)) * frequency * 360°`, with
`TOPp(i)` the time of the sample where the platform position is maximal
inside the cycle (`np.argmax(cycle_platform)` in the documented corrected
implementation, which is not among the provided sources), normalised into
[0°,180°].  `Fref` is the same crossing-scan midpoint the legacy code uses,
so that the only difference to `calculate_phase_fast` is the reference
point. -/
def phase_shift_topp (f t p : List ℚ) (sw : ℚ) : ℚ :=
  let cs := crossings_fast f t sw
  if cs.length < 2 then -1
  else
    let fref := fref_fast f t sw
    let dur := t.getLast?.getD 0 - t.getD 0 0
    let freq := 1 / dur
    let topp := t.getD (argmaxIdx p) 0
    let phi := pymod (fref - topp) (1 / freq) * freq * 360
    if phi > 180 then 360 - phi else phi

/-- Modelled from the spec: the §4.2 reference time — crossings classified as
down (force falling through the static weight) or up (rising through it),
kept only when the static weight lies inside the validity band that
`rfst_fmin`/`rfst_fmax` carve out of the cycle's force range (the documented
`RFstF` condition `f_min_limit < static_weight < f_max_limit` with
`f_min_limit = min + Δf·rfst_fmin/100`, `f_max_limit = max − Δf·rfst_fmax/100`),
and `Fref` the midpoint of the first valid down- and the first valid
up-crossing; `none` when either is missing.  The corrected
`calculate_fref` this models is not among the provided sources. -/
def calculate_fref_spec (rfmin rfmax : ℚ) (f t : List ℚ) (sw : ℚ) : Option ℚ :=
  let fmin := listMin f
  let fmax := listMax f
  let deltaF := fmax - fmin
  let lo := fmin + deltaF * rfmin / 100
  let hi := fmax - deltaF * rfmax / 100
  if lo < sw ∧ sw < hi then
    let dirs := (List.range' 1 (f.length - 1)).filterMap fun i =>
      let f0 := f.getD (i - 1) 0
      let f1 := f.getD i 0
      if f0 ≥ sw ∧ sw ≥ f1 then
        some (t.getD (i - 1) 0 + (sw - f0) / (f1 - f0) * (t.getD i 0 - t.getD (i - 1) 0), true)
      else if f0 ≤ sw ∧ sw ≤ f1 then
        some (t.getD (i - 1) 0 + (sw - f0) / (f1 - f0) * (t.getD i 0 - t.getD (i - 1) 0), false)
      else none
    match (dirs.filter (·.2 = true)).head?, (dirs.filter (·.2 = false)).head? with
    | some d, some u => some ((d.1 + u.1) / 2)
    | _, _ => none
  else none

deriving instance DecidableEq for Except

/-! ### Concrete measurement records used by the counterexample theorems

`platform61` is a 61-sample tent-shaped platform trace with exactly the two
peaks 5 and 55 (for both peak finders), `times61` a uniform 490 Hz clock, so
the single cycle `[5,55)` lasts 1/10 s (10 Hz, inside the 6–18 Hz band).
`platform111`/`times111` extend this to three peaks 5, 55, 105 with cycle
frequencies 10 Hz and 80/7 Hz. -/

def platform61 : List ℚ := (List.range' 0 61).map fun i =>
  if i ≤ 4 then (i : ℚ)
  else if i = 5 then 50
  else if i ≤ 30 then (30 : ℚ) - i
  else if i ≤ 54 then (i : ℚ) - 30
  else if i = 55 then 49
  else (60 : ℚ) - i

def times61 : List ℚ := (List.range' 0 61).map fun i => (i : ℚ) / 490

def force600 : List ℚ := List.replicate 61 600

def force500 : List ℚ := List.replicate 61 500

def platform111 : List ℚ := (List.range' 0 111).map fun i =>
  if i ≤ 4 then (i : ℚ)
  else if i = 5 then 50
  else if i ≤ 30 then (30 : ℚ) - i
  else if i ≤ 54 then (i : ℚ) - 30
  else if i = 55 then 49
  else if i ≤ 80 then (80 : ℚ) - i
  else if i ≤ 104 then (i : ℚ) - 80
  else if i = 105 then 48
  else (110 : ℚ) - i

def times111 : List ℚ := (List.range' 0 111).map fun i =>
  if i ≤ 54 then (i : ℚ) / 490 else ((i : ℚ) + 20) / 560

/-- Force trace for the 111-sample record: 600 N everywhere except a 700 N
plateau on samples 20–29, so the first cycle `[5,55)` crosses the 650 N
static weight twice (up between samples 19/20, down between 29/30) and the
second cycle `[55,105)` never crosses it. -/
def force111 : List ℚ := (List.range' 0 111).map fun i =>
  if 20 ≤ i ∧ i ≤ 29 then (700 : ℚ) else 600

/-- Force trace with a 700 N plateau in *each* cycle (samples 20–29 and
70–79): both cycles of the 111-sample record cross the 650 N static weight
twice and carry a genuine phase value. -/
def force111b : List ℚ := (List.range' 0 111).map fun i =>
  if (20 ≤ i ∧ i ≤ 29) ∨ (70 ≤ i ∧ i ≤ 79) then (700 : ℚ) else 600

/-- Invariant of the Python peak accumulator: strictly increasing indices,
all inside `[5, n-5)`. -/
def PeaksOk (n : ℕ) (l : List ℕ) : Prop :=
  List.Chain' (· < ·) l ∧ ∀ x ∈ l, 5 ≤ x ∧ x + 5 < n

/-! ### Claim theorems -/

/-- C1 (code_bug): the phase of `_calculate_phase_fast` is measured from the
cycle start, not from the true platform peak.  On a cycle whose platform
trace `[10, 20, 3, 4, 2, 1]` has its maximum at sample 1 (not at the cycle
start), the code returns 72°, while the §4.3 phase referenced to
`TOPp(i)` — same crossings, same `Fref` — is 0°. -/
theorem phase_fast_ignores_true_platform_peak :
    calculate_phase_fast [700, 600, 700, 600, 600, 600]
      [0, 1/60, 2/60, 3/60, 4/60, 5/60] 650 = 72
    ∧ phase_shift_topp [700, 600, 700, 600, 600, 600]
      [0, 1/60, 2/60, 3/60, 4/60, 5/60] [10, 20, 3, 4, 2, 1] 650 = 0
    ∧ argmaxIdx [(10 : ℚ), 20, 3, 4, 2, 1] = 1
    ∧ (72 : ℚ) ≠ 0 := by
  decide

/-- C2 (code_bug): a cycle with fewer than two static-weight crossings is
not excluded from the φmin search.  On `platform61`/`force600` the only
in-band cycle `[5,55)` has zero crossings (the force never meets the 650 N
static weight), `_calculate_phase_fast` returns its sentinel `-1.0`, and the
guard `if phase is not None` — which can never fail for a float — lets it
through: the result is *valid* with `min_phase_shift = -1.0` taken from the
crossing-less cycle, not an excluded cycle. -/
theorem invalid_cycle_contributes_sentinel_phase :
    (crossings_fast ((force600.drop 5).take 50) ((times61.drop 5).take 50) 650).length = 0
    ∧ calculate_optimized_python (initCalcState false) platform61 force600 times61 650 =
      .ok ⟨true, none, some (-1), some 10, [-1], [10]⟩ := by
  decide

/-- C3 (code_bug): `Fref` in `_calculate_phase_fast` is the mean of the
first two crossings regardless of direction, and no `rfst` validity-band
filtering is applied (the `rfst_fmin`/`rfst_fmax` attributes are passed to
the C extension and never read).  On the cycle `[660, 650, 640, 650, 660]`
the sample equal to the static weight makes the first *two* recorded
crossings both down-crossings at `t = 1/490`, so the code's `Fref` is
`1/490`, while the documented down/up midpoint (all crossings inside the
25 %/25 % band) is `1/245`. -/
theorem fref_fast_ignores_direction_and_band :
    fref_fast [660, 650, 640, 650, 660] [0, 1/490, 2/490, 3/490, 4/490] 650 = 1/490
    ∧ calculate_fref_spec 25 25 [660, 650, 640, 650, 660]
      [0, 1/490, 2/490, 3/490, 4/490] 650 = some (1/245)
    ∧ ((1 : ℚ)/490) ≠ 1/245 := by
  decide

/-- C4 (code_bug): φmin is never computed for a record with two or more
recorded in-band cycles.  On the 111-sample record with a 700 N plateau in
each cycle, both cycles are valid (two crossings each, phase 7020/49 ≈
143.3° at 10 Hz and at 80/7 Hz), so the specified φmin is 7020/49° at
10 Hz; but `if not results['phase_shifts']:` applies `not` to the
two-element numpy array, which raises `ValueError` — the program reports no
minimum at all.  (On a one-cycle record the reported minimum can even be an
invalid cycle's sentinel `-1.0`; see the claim C2 record.) -/
theorem min_phase_lost_to_numpy_truthiness :
    2 ≤ (crossings_fast ((force111b.drop 5).take 50) ((times111.drop 5).take 50) 650).length
    ∧ 2 ≤ (crossings_fast ((force111b.drop 55).take 50) ((times111.drop 55).take 50) 650).length
    ∧ analyze_cycles_vectorized (initCalcState false) force111b times111 650
        (find_peaks_fast platform111) = [(7020/49, 10), (7020/49, 80/7)]
    ∧ calculate_optimized_python (initCalcState false) platform111 force111b times111 650 =
      .error .valueError := by
  decide

/-- C5 (confirmed): branch selection of `calculate_rfa_max`: with both flags
clear `FAmax = static_weight - min(force)`; with only the underflow flag set
`FAmax = max(force) - static_weight`; with the overflow flag set (alone or
mixed) `FAmax` is the maximum of both branch values; and
`RFAmax = FAmax / static_weight * 100` whenever `static_weight > 0`. -/
theorem rfa_max_branch_selection (u o : Bool) (force : List ℚ) (sw : ℚ)
    (_hne : force ≠ []) (hsw : 0 < sw) :
    (u = false → o = false →
      (calculate_rfa_max u o force sw).fa_max = sw - listMin force)
    ∧ (u = true → o = false →
      (calculate_rfa_max u o force sw).fa_max = listMax force - sw)
    ∧ (o = true →
      (calculate_rfa_max u o force sw).fa_max =
        max (listMax force - sw) (sw - listMin force))
    ∧ (calculate_rfa_max u o force sw).rfa_max =
        (calculate_rfa_max u o force sw).fa_max / sw * 100 := by
  refine ⟨?_, ?_, ?_, ?_⟩
  · rintro rfl rfl
    simp only [calculate_rfa_max]
    rw [if_pos (by simp)]
  · rintro rfl rfl
    simp only [calculate_rfa_max]
    rw [if_neg (by simp), if_pos (by simp)]
  · rintro rfl
    cases u <;> simp only [calculate_rfa_max] <;>
      rw [if_neg (by simp), if_neg (by simp)]
  · simp only [calculate_rfa_max]
    rw [if_pos hsw]

/-- Witness for `rfa_max_branch_selection` at
`force = [600, 700]`, `static_weight = 650`, both flags clear. -/
theorem rfa_max_branch_selection_witness :
    ([600, 700] : List ℚ) ≠ [] ∧ (0 : ℚ) < 650 ∧
      ((calculate_rfa_max false false [600, 700] 650).fa_max = 650 - listMin [600, 700]
        ∧ (calculate_rfa_max false false [600, 700] 650).rfa_max =
            (calculate_rfa_max false false [600, 700] 650).fa_max / 650 * 100) :=
  ⟨by simp, by norm_num,
    (rfa_max_branch_selection false false [600, 700] 650 (by simp) (by norm_num)).1
      rfl rfl,
    (rfa_max_branch_selection false false [600, 700] 650 (by simp) (by norm_num)).2.2.2⟩

/-- C6 (corrected, counterexample): on a record whose platform trace has no
peak at all, `_calculate_optimized_python` does *not* raise
`InsufficientDataError` — no exception exists on this path — it returns the
invalid-result dictionary `{'valid': False, 'error': 'Nicht genug Peaks
gefunden'}`. -/
theorem few_peaks_returns_error_dict_not_exception :
    calculate_optimized_python (initCalcState false) [0, 0, 0, 0, 0]
      [600, 600, 600, 600, 600] [0, 1/100, 2/100, 3/100, 4/100] 650 =
      .ok (PhaseOut.mkInvalid "Nicht genug Peaks gefunden")
    ∧ calculate_optimized_python (initCalcState false) [0, 0, 0, 0, 0]
      [600, 600, 600, 600, 600] [0, 1/100, 2/100, 3/100, 4/100] 650 ≠
      .error .insufficientDataError := by
  decide

/-- C6 (corrected, amended): whenever fewer than two platform peaks are
found, the Python path fails for this wheel by *returning* the
invalid-result dictionary with error text `'Nicht genug Peaks gefunden'` —
no phase values are produced and nothing is raised. -/
theorem few_peaks_yields_invalid_result (st : CalcState) (pd fd td : List ℚ)
    (sw : ℚ) (h : (find_peaks_fast pd).length < 2) :
    calculate_optimized_python st pd fd td sw =
      .ok (PhaseOut.mkInvalid "Nicht genug Peaks gefunden") := by
  unfold calculate_optimized_python
  rw [if_pos h]

/-- Witness for `few_peaks_yields_invalid_result` on a flat 4-sample
record. -/
theorem few_peaks_yields_invalid_result_witness :
    (find_peaks_fast [0, 0, 0, 0]).length < 2 ∧
      calculate_optimized_python (initCalcState false) [0, 0, 0, 0]
        [600, 600, 600, 600] [0, 1/100, 2/100, 3/100] 650 =
        .ok (PhaseOut.mkInvalid "Nicht genug Peaks gefunden") :=
  ⟨by decide,
    few_peaks_yields_invalid_result (initCalcState false) [0, 0, 0, 0]
      [600, 600, 600, 600] [0, 1/100, 2/100, 3/100] 650
      (by decide)⟩

/-- C7 (confirmed): every crossing recorded by the scan of
`_calculate_phase_fast` arises at a sign change of the force against the
static weight and equals the interpolated time
`t[i-1] + (sw - f[i-1]) / (f[i] - f[i-1]) * (t[i] - t[i-1])`; and on the
spec's concrete instance — forces `[640, 660]` at times `[0, 0.010]` with
static weight 650 — the recorded crossing time is exactly `0.005`. -/
theorem crossing_interpolation_formula :
    (∀ (f t : List ℚ) (sw c : ℚ), c ∈ crossings_fast f t sw →
      ∃ i, 1 ≤ i ∧ i < f.length ∧
        ((f.getD (i - 1) 0 ≤ sw ∧ sw ≤ f.getD i 0) ∨
          (f.getD (i - 1) 0 ≥ sw ∧ sw ≥ f.getD i 0)) ∧
        c = t.getD (i - 1) 0 +
          (sw - f.getD (i - 1) 0) / (f.getD i 0 - f.getD (i - 1) 0) *
            (t.getD i 0 - t.getD (i - 1) 0))
    ∧ crossings_fast [640, 660] [0, 1/100] 650 = [1/200] := by
  constructor
  · intro f t sw c hc
    rw [crossings_fast, List.mem_filterMap] at hc
    obtain ⟨i, hi, hbody⟩ := hc
    rw [List.mem_range'_1] at hi
    refine ⟨i, hi.1, by omega, ?_⟩
    rw [crossBody] at hbody
    split_ifs at hbody with h1 h2
    · exact ⟨Or.inl h1, (Option.some_inj.mp hbody).symm⟩
    · exact ⟨Or.inr h2, (Option.some_inj.mp hbody).symm⟩
  · decide

/-- Witness for `crossing_interpolation_formula`: the membership hypothesis
is discharged on the concrete `[640, 660]` instance. -/
theorem crossing_interpolation_formula_witness :
    ((1 : ℚ)/200 ∈ crossings_fast [640, 660] [0, 1/100] 650) ∧
      ∃ i, 1 ≤ i ∧ i < ([640, 660] : List ℚ).length ∧
        ((([640, 660] : List ℚ).getD (i - 1) 0 ≤ 650 ∧
            650 ≤ ([640, 660] : List ℚ).getD i 0) ∨
          (([640, 660] : List ℚ).getD (i - 1) 0 ≥ 650 ∧
            650 ≥ ([640, 660] : List ℚ).getD i 0)) ∧
        (1 : ℚ)/200 = ([0, 1/100] : List ℚ).getD (i - 1) 0 +
          (650 - ([640, 660] : List ℚ).getD (i - 1) 0) /
            (([640, 660] : List ℚ).getD i 0 - ([640, 660] : List ℚ).getD (i - 1) 0) *
            (([0, 1/100] : List ℚ).getD i 0 - ([0, 1/100] : List ℚ).getD (i - 1) 0) :=
  ⟨by decide,
    crossing_interpolation_formula.1 [640, 660] [0, 1/100] 650 (1/200)
      (by decide)⟩

/-- C8 (confirmed): for nonnegative wheel metrics the imbalance helper
computes `|l - r| / max(l, r) * 100`; in particular φmin 45° vs 35° gives
`200/9 % ≈ 22.22 %`, passing a 30 % limit. -/
theorem imbalance_formula (l r : ℚ) (hl : 0 ≤ l) (hr : 0 ≤ r) :
    calculate_difference_percent l r = |l - r| / max l r * 100
    ∧ calculate_difference_percent 45 35 = 200/9
    ∧ (200/9 : ℚ) < 30 := by
  refine ⟨?_, by decide, by norm_num⟩
  by_cases h0 : l = 0 ∧ r = 0
  · obtain ⟨rfl, rfl⟩ := h0
    simp [calculate_difference_percent]
  · have hm : max |l| |r| = max l r := by rw [abs_of_nonneg hl, abs_of_nonneg hr]
    have hmz : max l r ≠ 0 := by
      intro hz
      exact h0 ⟨le_antisymm ((le_max_left l r).trans hz.le) hl,
        le_antisymm ((le_max_right l r).trans hz.le) hr⟩
    rw [calculate_difference_percent, if_neg h0]
    simp only [hm, if_neg hmz]

/-- Witness for `imbalance_formula` at the spec's 45°/35° instance. -/
theorem imbalance_formula_witness :
    (0 : ℚ) ≤ 45 ∧ (0 : ℚ) ≤ 35 ∧
      calculate_difference_percent 45 35 = |(45 : ℚ) - 35| / max 45 35 * 100 :=
  ⟨by norm_num, by norm_num, (imbalance_formula 45 35 (by norm_num) (by norm_num)).1⟩

/-- C9 (confirmed): `OptimizedPhaseCalculator.calculate` is deterministic —
it never mutates the calculator state, evaluating the same record twice
yields identical results, and the `_cache` contents never influence the
result. -/
theorem calculate_deterministic (st : CalcState) (pd fd td : List ℚ) (sw : ℚ) :
    (calculate st pd fd td sw).2 = st
    ∧ (calculate (calculate st pd fd td sw).2 pd fd td sw).1 =
        (calculate st pd fd td sw).1
    ∧ ∀ c' : List ℚ,
        (calculate { st with cache := c' } pd fd td sw).1 =
          (calculate st pd fd td sw).1 := by
  have hst : (calculate st pd fd td sw).2 = st := by
    unfold calculate; split <;> rfl
  refine ⟨hst, by rw [hst], ?_⟩
  intro c'
  rcases st with ⟨mn, mx, r1, r2, c, hc⟩
  have hpyf : cycleEval ⟨mn, mx, r1, r2, c', hc⟩ = cycleEval ⟨mn, mx, r1, r2, c, hc⟩ := rfl
  have hcf : cycleEvalC ⟨mn, mx, r1, r2, c', hc⟩ = cycleEvalC ⟨mn, mx, r1, r2, c, hc⟩ := rfl
  cases hc <;>
    (dsimp only [calculate, calculate_optimized_python, calculate_phase_shift,
      analyze_cycles_vectorized, analyze_cycles_cext]
     simp only [hpyf, hcf]
     rfl)

/-! ### Bridging lemmas for the path-equivalence analysis (claim C10) -/

/-- A foldl step that preserves an invariant preserves it along the list. -/
theorem foldl_preserve {α β : Type} (P : β → Prop) (f : β → α → β)
    (hstep : ∀ b a, P b → P (f b a)) :
    ∀ (l : List α) (b : β), P b → P (l.foldl f b)
  | [], _, hb => hb
  | a :: l, b, hb => foldl_preserve P f hstep l (f b a) (hstep b a hb)

theorem pyPeakStep_preserves (d : List ℚ) (n : ℕ) (acc : List ℕ) (i : ℕ)
    (h : PeaksOk n acc) : PeaksOk n (pyPeakStep d n acc i) := by
  unfold pyPeakStep
  split
  case isFalse => exact h
  case isTrue hcond =>
    obtain ⟨-, hdist, ⟨hi5, hin⟩, -⟩ := hcond
    constructor
    · rw [List.chain'_append]
      refine ⟨h.1, List.chain'_singleton i, ?_⟩
      intro x hx y hy
      rw [List.head?_cons, Option.mem_some_iff] at hy
      subst hy
      rw [distOk, hx] at hdist
      simp only [decide_eq_true_eq] at hdist
      omega
    · intro x hx
      rcases List.mem_append.mp hx with hx | hx
      · exact h.2 x hx
      · rw [List.mem_singleton] at hx
        subst hx
        exact ⟨hi5, by omega⟩

theorem find_peaks_fast_ok (d : List ℚ) : PeaksOk d.length (find_peaks_fast d) :=
  foldl_preserve (PeaksOk d.length) (pyPeakStep d d.length)
    (pyPeakStep_preserves d d.length) _ [] ⟨List.chain'_nil, by simp⟩

/-- Consecutive elements of a strictly increasing list, read off its
self-zip, are ordered. -/
theorem chain'_zip_tail : ∀ {l : List ℕ}, List.Chain' (· < ·) l →
    ∀ p ∈ l.zip l.tail, p.1 < p.2 := by
  intro l
  induction l with
  | nil => intro _ p hp; simp at hp
  | cons a t ih =>
    intro h p hp
    cases t with
    | nil => simp at hp
    | cons b t' =>
      rw [List.tail_cons, List.zip_cons_cons] at hp
      rcases List.mem_cons.mp hp with rfl | hp'
      · exact (List.chain'_cons.mp h).1
      · exact ih (List.chain'_cons.mp h).2 p hp'

theorem getD_slice (l : List ℚ) (s m k : ℕ) (hk : k < m) :
    ((l.drop s).take m).getD k 0 = l.getD (s + k) 0 := by
  rw [List.getD_eq_getElem?_getD, List.getD_eq_getElem?_getD,
    List.getElem?_take, if_pos hk, List.getElem?_drop]

theorem length_slice (l : List ℚ) (s m : ℕ) :
    ((l.drop s).take m).length = min m (l.length - s) := by
  simp [List.length_take, List.length_drop]

theorem getLastD_slice (l : List ℚ) (s e : ℕ) (hs : s < e) (he : e ≤ l.length) :
    ((l.drop s).take (e - s)).getLast?.getD 0 = l.getD (e - 1) 0 := by
  have hlen : ((l.drop s).take (e - s)).length = e - s := by
    rw [length_slice]; omega
  have h1 : ((l.drop s).take (e - s)).getLast?.getD 0 =
      ((l.drop s).take (e - s)).getD (e - s - 1) 0 := by
    rw [List.getLast?_eq_getElem?, hlen, List.getD_eq_getElem?_getD]
  rw [h1, getD_slice l s (e - s) (e - s - 1) (by omega)]
  have : s + (e - s - 1) = e - 1 := by omega
  rw [this]

theorem getD_take_small (l : List ℚ) (k n : ℕ) (h : k < n) :
    (l.take n).getD k 0 = l.getD k 0 := by
  rw [List.getD_eq_getElem?_getD, List.getD_eq_getElem?_getD,
    List.getElem?_take, if_pos h]

theorem pymod_eq_fract (x : ℚ) : pymod x 360 = 360 * Int.fract (x / 360) := by
  rw [pymod, Int.fract]
  ring

theorem pymod_nonneg (x : ℚ) : 0 ≤ pymod x 360 := by
  rw [pymod_eq_fract]
  exact mul_nonneg (by norm_num) (Int.fract_nonneg _)

theorem pymod_lt (x : ℚ) : pymod x 360 < 360 := by
  rw [pymod_eq_fract]
  have h := Int.fract_lt_one (x / 360)
  linarith

/-- The C normalisation (`fmod`, then `+ 360` if negative) agrees with the
Python float `%` with positive modulus. -/
theorem fmodQ_adjust (x : ℚ) :
    (if fmodQ x 360 < 0 then fmodQ x 360 + 360 else fmodQ x 360) = pymod x 360 := by
  have hpm : pymod x 360 = x - 360 * ⌊x / 360⌋ := rfl
  rw [fmodQ, truncQ]
  by_cases hneg : x / 360 < 0
  · rw [if_pos hneg]
    by_cases hfr : Int.fract (x / 360) = 0
    · have hfl : (⌊x / 360⌋ : ℚ) = x / 360 := by
        rw [Int.fract] at hfr; linarith
      have hceil : ⌈x / 360⌉ = ⌊x / 360⌋ := by
        conv_lhs => rw [← hfl]
        exact Int.ceil_intCast _
      rw [hceil, ← hpm]
      rw [if_neg (not_lt.mpr (pymod_nonneg x))]
    · have hfr' : 0 < Int.fract (x / 360) :=
        lt_of_le_of_ne (Int.fract_nonneg _) (Ne.symm hfr)
      have hflt : (⌊x / 360⌋ : ℚ) < x / 360 := by
        rw [Int.fract] at hfr'; linarith
      have hceil : ⌈x / 360⌉ = ⌊x / 360⌋ + 1 := by
        refine le_antisymm (Int.ceil_le.mpr ?_) ?_
        · push_cast
          linarith [Int.lt_floor_add_one (x / 360)]
        · have := Int.lt_ceil.mpr hflt
          omega
      rw [hceil]
      have hv : x - 360 * ((⌊x / 360⌋ : ℤ) + 1 : ℤ) = pymod x 360 - 360 := by
        rw [hpm]; push_cast; ring
      rw [hv, if_pos (by linarith [pymod_lt x])]
      ring
  · rw [if_neg hneg, ← hpm, if_neg (not_lt.mpr (pymod_nonneg x))]

/-- The C crossing scan over `[start+1, end)` equals the Python scan over
the extracted slice, up to the C cap of 100 recorded crossings. -/
theorem crossings_c_eq_slice (f t : List ℚ) (sw : ℚ) (s e : ℕ)
    (hef : e ≤ f.length) :
    crossings_c f t s e sw =
      (crossings_fast ((f.drop s).take (e - s)) ((t.drop s).take (e - s)) sw).take 100 := by
  rw [crossings_c, crossings_fast]
  congr 1
  have hlen : ((f.drop s).take (e - s)).length = e - s := by
    rw [length_slice]; omega
  rw [hlen]
  have hm : e - (s + 1) = e - s - 1 := by omega
  rw [hm, List.range'_eq_map_range, List.range'_eq_map_range,
    List.filterMap_map, List.filterMap_map]
  apply List.filterMap_congr
  intro j hj
  rw [List.mem_range] at hj
  simp only [Function.comp]
  unfold crossBody
  have h1 : s + 1 + j - 1 = s + j := by omega
  have h2 : 1 + j - 1 = j := by omega
  rw [h1, h2]
  rw [getD_slice f s (e - s) j (by omega), getD_slice f s (e - s) (1 + j) (by omega),
    getD_slice t s (e - s) j (by omega), getD_slice t s (e - s) (1 + j) (by omega)]
  have h3 : s + (1 + j) = s + 1 + j := by omega
  rw [h3]

/-- With at least two crossings in the cycle, the C per-cycle phase equals
the Python per-cycle phase on the extracted slice. -/
theorem cycle_phase_eq_slice (f t : List ℚ) (sw : ℚ) (s e : ℕ)
    (hs : s < e) (hef : e ≤ f.length) (het : e ≤ t.length)
    (h2 : 2 ≤ (crossings_fast ((f.drop s).take (e - s))
      ((t.drop s).take (e - s)) sw).length) :
    calculate_cycle_phase f t s e sw =
      calculate_phase_fast ((f.drop s).take (e - s)) ((t.drop s).take (e - s)) sw := by
  have hcs := crossings_c_eq_slice f t sw s e hef
  have hflen : ((f.drop s).take (e - s)).length = e - s := by
    rw [length_slice]; omega
  have hups : (crossings_fast ((f.drop s).take (e - s))
      ((t.drop s).take (e - s)) sw).length ≤ e - s - 1 := by
    rw [crossings_fast]
    calc (List.filterMap _ _).length
        ≤ (List.range' 1 (((f.drop s).take (e - s)).length - 1)).length :=
          List.length_filterMap_le _ _
      _ = e - s - 1 := by rw [List.length_range', hflen]
  have hes3 : ¬ (e - s < 3) := by omega
  simp only [calculate_cycle_phase, calculate_phase_fast, fref_fast]
  rw [if_neg hes3, hcs]
  have hc2 : ¬ (((crossings_fast ((f.drop s).take (e - s))
      ((t.drop s).take (e - s)) sw).take 100).length < 2) := by
    rw [List.length_take]; omega
  rw [if_neg hc2, if_neg (by omega :
    ¬ (crossings_fast ((f.drop s).take (e - s)) ((t.drop s).take (e - s)) sw).length < 2)]
  rw [getD_take_small _ 0 100 (by norm_num), getD_take_small _ 1 100 (by norm_num)]
  rw [getLastD_slice t s e hs het]
  rw [getD_slice t s (e - s) 0 (by omega)]
  have h0 : s + 0 = s := by omega
  rw [h0, fmodQ_adjust]

/-- With at least two crossings, the Python per-cycle phase lies in
`[0°, 180°]`, in particular it is non-negative (so the C filter keeps it). -/
theorem phase_fast_nonneg (f t : List ℚ) (sw : ℚ)
    (h2 : 2 ≤ (crossings_fast f t sw).length) :
    0 ≤ calculate_phase_fast f t sw := by
  simp only [calculate_phase_fast]
  rw [if_neg (by omega)]
  split_ifs with h
  · linarith [pymod_lt ((fref_fast f t sw - t.getD 0 0) /
      (t.getLast?.getD 0 - t.getD 0 0) * 360)]
  · exact pymod_nonneg _

/-- Per-cycle agreement of the two paths, given that the cycle produces at
least two crossings. -/
theorem cycleEval_eq (st : CalcState) (f t : List ℚ) (sw : ℚ) (s e : ℕ)
    (hs : s < e) (hef : e ≤ f.length) (het : e ≤ t.length)
    (h2 : 2 ≤ (crossings_fast ((f.drop s).take (e - s))
      ((t.drop s).take (e - s)) sw).length) :
    cycleEval st f t sw (s, e) = cycleEvalC st f t sw (s, e) := by
  simp only [cycleEval, cycleEvalC]
  rw [getLastD_slice t s e hs het, getD_slice t s (e - s) 0 (by omega)]
  have h0 : s + 0 = s := rfl
  rw [h0]
  by_cases hband : st.min_freq ≤ 1 / (t.getD (e - 1) 0 - t.getD s 0) ∧
      1 / (t.getD (e - 1) 0 - t.getD s 0) ≤ st.max_freq
  · rw [if_pos hband, if_neg (by
      rintro (h | h)
      · linarith [hband.1]
      · linarith [hband.2])]
    rw [cycle_phase_eq_slice f t sw s e hs hef het h2]
    rw [if_pos (phase_fast_nonneg _ _ _ h2)]
  · rw [if_neg hband, if_pos ?_]
    rcases not_and_or.mp hband with h | h
    · exact Or.inl (not_le.mp h)
    · exact Or.inr (not_le.mp h)

/-- The two cycle analyses agree on a peak list whose consecutive pairs are
in bounds and all produce at least two crossings. -/
theorem analyze_eq (st : CalcState) (fd td : List ℚ) (sw : ℚ) (peaks : List ℕ)
    (hb : ∀ p ∈ peaks.zip peaks.tail, p.1 < p.2 ∧ p.2 ≤ fd.length ∧ p.2 ≤ td.length)
    (hcr : ∀ p ∈ peaks.zip peaks.tail,
      2 ≤ (crossings_fast ((fd.drop p.1).take (p.2 - p.1))
        ((td.drop p.1).take (p.2 - p.1)) sw).length) :
    analyze_cycles_vectorized st fd td sw peaks =
      analyze_cycles_cext st fd td sw peaks := by
  rw [analyze_cycles_vectorized, analyze_cycles_cext]
  apply List.filterMap_congr
  intro p hp
  obtain ⟨s, e⟩ := p
  obtain ⟨h1, h2, h3⟩ := hb (s, e) hp
  exact cycleEval_eq st fd td sw s e h1 h2 h3 (hcr (s, e) hp)

set_option maxRecDepth 1600 in
/-- C10 (code_bug): the two implementations behind
`OptimizedPhaseCalculator.calculate` are not interchangeable.  On the
61-sample record whose only in-band cycle has no static-weight crossing,
the pure-Python path returns a *valid* result (the one-element phase array
`[-1.0]` is truthy, so the sentinel becomes `min_phase_shift`), while the
C-extension path filters the negative phase out and returns the *invalid*
`{'valid': False, 'error': 'No valid cycles found'}`: the dispatch on
`has_c_extension` silently changes the result. -/
theorem python_and_c_paths_disagree :
    (calculate (initCalcState false) platform61 force500 times61 650).1 =
      .ok ⟨true, none, some (-1), some 10, [-1], [10]⟩
    ∧ (calculate (initCalcState true) platform61 force500 times61 650).1 =
      .ok (PhaseOut.mkInvalid "No valid cycles found")
    ∧ claimObs (calculate (initCalcState false) platform61 force500 times61 650).1 ≠
      claimObs (calculate (initCalcState true) platform61 force500 times61 650).1 := by
  have hpy : (calculate (initCalcState false) platform61 force500 times61 650).1 =
      .ok ⟨true, none, some (-1), some 10, [-1], [10]⟩ := by
    show calculate_optimized_python (initCalcState false) platform61 force500 times61 650 = _
    decide
  have hc : (calculate (initCalcState true) platform61 force500 times61 650).1 =
      .ok (PhaseOut.mkInvalid "No valid cycles found") := by
    show calculate_phase_shift (initCalcState true) platform61 force500 times61 650 = _
    decide
  refine ⟨hpy, hc, ?_⟩
  rw [hpy, hc]
  decide
